import Mathlib

/-!
Verification development for the Bedrock-Guardrails repository.

The definitions below are shallow embeddings of the Python sources
`create_guardrail.py`, `deploy_guardrail.py`, `create_guardrail_version.py`
and `kms_manager.py`.  Python dictionaries are modelled as association
lists over a small dynamic value type `PyVal`, Python strings as Lean
`String`, and machine interaction with the remote AWS services is modelled
at the interface boundary described by the specification.
-/

/-- Dynamic Python-like value used for the loosely typed guardrail
configuration dictionaries.  Float literals (grounding thresholds) are
carried opaquely as their decimal source text: no code under verification
computes with them. -/
inductive PyVal where
  | vstr (s : String)
  | vbool (b : Bool)
  | vnum (n : Int)
  | vfloat (lit : String)
  | vdict (fields : List (String × PyVal))
  | vlist (items : List PyVal)

/-- Association-list lookup, modelling Python `dict[k]` / `dict.get(k)`.
Python dictionaries have unique keys; the first binding wins. -/
def pyGet (d : List (String × PyVal)) (k : String) : Option PyVal :=
  (d.find? (fun p => decide (p.1 = k))).map Prod.snd

/-- Models Python `k in dict`. -/
def hasKey (d : List (String × PyVal)) (k : String) : Bool :=
  (pyGet d k).isSome

/-- Models Python `dict.get(k, default)`. -/
def pyGetD (d : List (String × PyVal)) (k : String) (dflt : PyVal) : PyVal :=
  (pyGet d k).getD dflt

/-- Models Python `isinstance(v, dict)`. -/
def isDict : PyVal → Bool
  | .vdict _ => true
  | _ => false

/-- Required top-level fields checked by `_validate_guardrail_config`
(create_guardrail.py lines 559-563). -/
def required_fields : List String :=
  ["name", "description", "blockedInputMessaging",
   "blockedOutputsMessaging", "contentPolicyConfig",
   "wordPolicyConfig", "topicPolicyConfig"]

/-- Embedding of `BankingGuardrailManager._validate_guardrail_config`
(create_guardrail.py lines 549-587): reports missing required fields,
then requires the three policy groups obtained with `.get(k, {})` to be
dictionaries, and otherwise accepts. -/
def validate_guardrail_config (config : List (String × PyVal)) : Bool × String :=
  let missing := required_fields.filter (fun f => !(hasKey config f))
  if !missing.isEmpty then
    (false, "Missing required fields: " ++ String.intercalate ", " missing)
  else if !(isDict (pyGetD config "contentPolicyConfig" (.vdict []))) then
    (false, "contentPolicyConfig must be a dictionary")
  else if !(isDict (pyGetD config "wordPolicyConfig" (.vdict []))) then
    (false, "wordPolicyConfig must be a dictionary")
  else if !(isDict (pyGetD config "topicPolicyConfig" (.vdict []))) then
    (false, "topicPolicyConfig must be a dictionary")
  else
    (true, "")

/-- Written from the claim's words (not from the code), for comparison with
the validator: a CONTENT_FILTER rule of type PROMPT_ATTACK whose
output-direction strength is not NONE while output filtering is disabled. -/
def filterViolatesPromptAttackRule : PyVal → Bool
  | .vdict fd =>
    (match pyGet fd "type" with
     | some (.vstr t) => decide (t = "PROMPT_ATTACK")
     | _ => false) &&
    (match pyGet fd "outputStrength" with
     | some (.vstr s) => !(decide (s = "NONE"))
     | _ => false) &&
    (match pyGet fd "outputEnabled" with
     | some (.vbool b) => !b
     | _ => false)
  | _ => false

/-- Written from the claim's words: the compiled document contains some
PROMPT_ATTACK content filter violating the strength/direction invariant. -/
def promptAttackOutputViolation (config : List (String × PyVal)) : Bool :=
  match pyGetD config "contentPolicyConfig" (.vdict []) with
  | .vdict cp =>
    (match pyGet cp "filtersConfig" with
     | some (.vlist fs) => fs.any filterViolatesPromptAttackRule
     | _ => false)
  | _ => false

/-- A compiled document with every required field present and dictionary
policy groups, whose content policy contains a PROMPT_ATTACK filter with
output filtering disabled but output strength HIGH. -/
def promptAttackBadConfig : List (String × PyVal) :=
  [("name", .vstr "BankingVoiceBotGuardrail-test"),
   ("description", .vstr "test document"),
   ("blockedInputMessaging", .vstr "blocked input"),
   ("blockedOutputsMessaging", .vstr "blocked output"),
   ("contentPolicyConfig", .vdict
     [("filtersConfig", .vlist
       [.vdict
         [("type", .vstr "PROMPT_ATTACK"),
          ("inputStrength", .vstr "HIGH"),
          ("outputStrength", .vstr "HIGH"),
          ("inputEnabled", .vbool true),
          ("outputEnabled", .vbool false),
          ("inputAction", .vstr "BLOCK"),
          ("outputAction", .vstr "NONE")]])]),
   ("wordPolicyConfig", .vdict [("wordsConfig", .vlist [])]),
   ("topicPolicyConfig", .vdict [("topicsConfig", .vlist [])])]

/-- Embedding of the polling loop body in `GuardrailDeployer.deploy_guardrail`
(deploy_guardrail.py lines 145-167).  `statuses i` is the status string the
remote service answers to the i-th `get_guardrail_status` call.  The second
component counts how many status polls were performed; the Python function
returns only the Boolean. -/
def pollGuardrailLoop (statuses : Nat → String) (i : Nat) : Nat → Bool × Nat
  | 0 => (false, i)
  | n + 1 =>
    let s := statuses i
    if s = "ACTIVE" then (true, i + 1)
    else if s = "FAILED" ∨ s = "ERROR" then (false, i + 1)
    else if s = "READY" then (true, i + 1)
    else pollGuardrailLoop statuses (i + 1) n

/-- The poll loop started at attempt 0 with a caller-chosen bound. -/
def pollUntilTerminal (maxAttempts : Nat) (statuses : Nat → String) : Bool × Nat :=
  pollGuardrailLoop statuses 0 maxAttempts

/-- The polling bound appearing in `deploy_guardrail`: the literal
`max_attempts = 10` (deploy_guardrail.py line 145); it is not a parameter
of the function. -/
def deploy_max_attempts : Nat := 10

/-- Terminal statuses recognised by the loop. -/
def terminalStatuses : List String := ["ACTIVE", "FAILED", "ERROR", "READY"]

/-- Status sequence [CREATING, CREATING, ACTIVE, ACTIVE, ...] used by the
specification's worked example. -/
def exampleStatusSeq (i : Nat) : String :=
  if i < 2 then "CREATING" else "ACTIVE"

/-- Request parameters built by `create_guardrail_version_from_config` for its
`create_guardrail_version` call (create_guardrail_version.py lines 127-134).
`token` stands for the freshly generated `str(uuid.uuid4())`. -/
def create_guardrail_version_params (guardrail_id token : String)
    (description : Option String) : List (String × String) :=
  [("guardrailIdentifier", guardrail_id), ("clientRequestToken", token)] ++
    (match description with
     | some d => [("description", d)]
     | none => [])

/-- Request parameters built by `GuardrailDeployer.create_guardrail_version`
for its `create_guardrail_version` call (deploy_guardrail.py lines 59-62).
`timestamp` stands for `time.strftime("%Y-%m-%d %H:%M:%S")`. -/
def deployer_create_guardrail_version_params (guardrail_id timestamp : String) :
    List (String × String) :=
  [("guardrailIdentifier", guardrail_id),
   ("description", "Version created via script on " ++ timestamp)]

/-- String-valued association lookup for request parameter lists. -/
def strLookup (l : List (String × String)) (k : String) : Option String :=
  (l.find? (fun p => decide (p.1 = k))).map Prod.snd

/-- Embedding of `_get_topic_policy_config` (create_guardrail.py lines 239-299). -/
def get_topic_policy_config : PyVal :=
  let topic := fun (name definition : String) (examples : List String) =>
    PyVal.vdict
      [("name", .vstr name),
       ("definition", .vstr definition),
       ("type", .vstr "DENY"),
       ("examples", .vlist (examples.map PyVal.vstr)),
       ("inputAction", .vstr "BLOCK"),
       ("outputAction", .vstr "BLOCK"),
       ("inputEnabled", .vbool true),
       ("outputEnabled", .vbool true)]
  .vdict [("topicsConfig", .vlist
    [topic "Financial Fraud" "Discussions about fraudulent activities or scams"
       ["how to commit fraud", "bypass security measures", "scam techniques"],
     topic "Personal Information" "Requests for personal or sensitive information"
       ["what is my SSN", "tell me my account balance", "change my password"],
     topic "Financial Advice" "Providing financial or investment advice"
       ["should I invest in", "is this a good stock", "financial planning advice"],
     topic "Harmful Content" "Content that promotes harm or illegal activities"
       ["how to launder money", "illegal transactions", "bypass KYC"],
     topic "Sensitive Operations" "High-risk banking operations that require additional verification"
       ["wire transfer", "change account details", "update contact information"]])]

/-- Embedding of `_get_sensitive_info_policy_config`
(create_guardrail.py lines 301-369). -/
def get_sensitive_info_policy_config : PyVal :=
  let pii := fun (ty : String) =>
    PyVal.vdict
      [("type", .vstr ty),
       ("action", .vstr "BLOCK"),
       ("inputAction", .vstr "BLOCK"),
       ("outputAction", .vstr "BLOCK"),
       ("inputEnabled", .vbool true),
       ("outputEnabled", .vbool true)]
  let rgx := fun (name pattern description : String) =>
    PyVal.vdict
      [("name", .vstr name),
       ("pattern", .vstr pattern),
       ("action", .vstr "BLOCK"),
       ("description", .vstr description)]
  .vdict
    [("piiEntitiesConfig", .vlist
      [pii "US_SOCIAL_SECURITY_NUMBER",
       pii "CREDIT_DEBIT_CARD_NUMBER",
       pii "US_BANK_ACCOUNT_NUMBER",
       pii "US_BANK_ROUTING_NUMBER",
       pii "US_INDIVIDUAL_TAX_IDENTIFICATION_NUMBER"]),
     ("regexesConfig", .vlist
      [rgx "Credit Card Number" "\\b(?:\\d[ -]*?)\x7b13,16\x7d\\b" "Detects credit card numbers",
       rgx "SSN" "\\b\\d\x7b3\x7d[-\\.]?\\d\x7b2\x7d[-\\.]?\\d\x7b4\x7d\\b" "Detects Social Security Numbers",
       rgx "Bank Account Number" "\\b\\d\x7b8,17\x7d\\b" "Detects potential bank account numbers"])]

/-- Embedding of `_get_contextual_grounding_policy_config`
(create_guardrail.py lines 377-397). -/
def get_contextual_grounding_policy_config : PyVal :=
  .vdict [("filtersConfig", .vlist
    [.vdict [("type", .vstr "GROUNDING"), ("enabled", .vbool true),
             ("action", .vstr "BLOCK"), ("threshold", .vfloat "0.8")],
     .vdict [("type", .vstr "RELEVANCE"), ("enabled", .vbool true),
             ("action", .vstr "BLOCK"), ("threshold", .vfloat "0.7")]])]

/-- Embedding of `_get_content_policy_config` (create_guardrail.py
lines 455-513). -/
def get_content_policy_config : PyVal :=
  let filt := fun (ty instr outstr : String) (inEn outEn : Bool) (inAct outAct : String) =>
    PyVal.vdict
      [("type", .vstr ty),
       ("inputStrength", .vstr instr),
       ("outputStrength", .vstr outstr),
       ("inputEnabled", .vbool inEn),
       ("outputEnabled", .vbool outEn),
       ("inputAction", .vstr inAct),
       ("outputAction", .vstr outAct)]
  .vdict [("filtersConfig", .vlist
    [filt "HATE" "HIGH" "HIGH" true true "BLOCK" "BLOCK",
     filt "INSULTS" "HIGH" "HIGH" true true "BLOCK" "BLOCK",
     filt "PROMPT_ATTACK" "HIGH" "NONE" true false "BLOCK" "NONE",
     filt "SEXUAL" "HIGH" "HIGH" true true "BLOCK" "BLOCK",
     filt "VIOLENCE" "HIGH" "HIGH" true true "BLOCK" "BLOCK"])]

/-- The sensitive term catalog of `_get_word_policy_config`
(create_guardrail.py lines 520-527). -/
def sensitive_terms : List String :=
  ["password", "passcode", "security code", "one-time password", "MFA code",
   "wire transfer", "SWIFT code", "IBAN", "account balance", "overdraft",
   "account holder", "signature", "government ID", "driver\x27s license", "passport number",
   "credit card number", "CVV", "expiration date", "social security number", "SSN",
   "routing number", "account number", "PIN", "personal identification number"]

/-- Embedding of `_get_word_policy_config` (create_guardrail.py
lines 515-539). -/
def get_word_policy_config : PyVal :=
  .vdict [("wordsConfig", .vlist (sensitive_terms.map (fun term =>
    PyVal.vdict
      [("text", .vstr term),
       ("inputAction", .vstr "BLOCK"),
       ("outputAction", .vstr "BLOCK"),
       ("inputEnabled", .vbool true),
       ("outputEnabled", .vbool true)])))]

/-- The guardrail configuration dictionary assembled by
`create_banking_guardrail` (create_guardrail.py lines 660-676) before the
KMS key is attached.  `automatedReasoningPolicyConfig` is omitted because
`_get_automated_reasoning_policy_config` returns `None`. -/
def banking_guardrail_config (guardrail_name : String) : List (String × PyVal) :=
  [("name", .vstr guardrail_name),
   ("description", .vstr "Comprehensive guardrail for banking voice bot with enhanced security and compliance"),
   ("blockedInputMessaging", .vstr "I\x27m sorry, but I can\x27t process that request. For security reasons, certain actions require additional verification."),
   ("blockedOutputsMessaging", .vstr "I\x27m sorry, but I can\x27t provide that information through this channel. Please contact customer service for assistance."),
   ("contentPolicyConfig", get_content_policy_config),
   ("topicPolicyConfig", get_topic_policy_config),
   ("wordPolicyConfig", get_word_policy_config),
   ("sensitiveInformationPolicyConfig", get_sensitive_info_policy_config),
   ("contextualGroundingPolicyConfig", get_contextual_grounding_policy_config),
   ("tags", .vlist
     [.vdict [("key", .vstr "environment"), ("value", .vstr "production")],
      .vdict [("key", .vstr "department"), ("value", .vstr "customer_service")],
      .vdict [("key", .vstr "compliance"), ("value", .vstr "pci-dss")],
      .vdict [("key", .vstr "managed_by"), ("value", .vstr "security_team")]])]

/-- Metadata answered by the remote key service's `describe_key` call. -/
structure KeyMetadata where
  Arn : String
  KeyState : String

/-- Observable steps of one `create_banking_guardrail` run.  `kmsDescribe`
and `createGuardrailCall` are calls to remote services; `validateConfig`
is the local `_validate_guardrail_config` call; `raiseError` is a raised
`ValueError` surfaced to the caller. -/
inductive DeployStep where
  | kmsDescribe
  | validateConfig
  | createGuardrailCall
  | raiseError (msg : String)
deriving DecidableEq

/-- Which steps are calls to a remote service over the network. -/
def isNetworkStep : DeployStep → Bool
  | .kmsDescribe => true
  | .createGuardrailCall => true
  | _ => false

/-- Ordered trace of `create_banking_guardrail` (create_guardrail.py
lines 633-784): after assembling the configuration it reads `KMS_KEY_ID`
(model input `kmsKeyId`), raises if absent; otherwise calls the remote
`describe_key` (model input `describeKey`), raises if that fails or the
key is not Enabled; attaches the key to the configuration; only then runs
`_validate_guardrail_config`; and only on success calls the remote
`create_guardrail`. -/
def create_banking_guardrail_steps (guardrail_name : String)
    (kmsKeyId : Option String)
    (describeKey : String → Except String KeyMetadata) : List DeployStep :=
  match kmsKeyId with
  | none => [.raiseError "KMS key is required for guardrail creation"]
  | some kid =>
    DeployStep.kmsDescribe ::
      match describeKey kid with
      | .error _ => [.raiseError "Error accessing KMS key"]
      | .ok meta =>
        if meta.KeyState ≠ "Enabled" then [.raiseError "Error accessing KMS key"]
        else
          let cfg := banking_guardrail_config guardrail_name ++ [("kmsKeyId", .vstr kid)]
          DeployStep.validateConfig ::
            if (validate_guardrail_config cfg).1 = false then
              [.raiseError "Invalid guardrail configuration"]
            else
              [.createGuardrailCall]

/-- The fields of the remote `get_guardrail` response that the reconciler
reads.  `name` is accessed with `guardrail_info['name']` and is therefore
required; all other fields are read with `.get` and may be absent. -/
structure GuardrailInfo where
  name : String
  blockedInputMessaging : Option String
  blockedOutputsMessaging : Option String
  description : Option String
  kmsKeyId : Option String
  topicPolicyConfig : Option PyVal
  contentPolicyConfig : Option PyVal
  contextualGroundingPolicyConfig : Option PyVal
  sensitiveInformationPolicyConfig : Option PyVal
  wordPolicyConfig : Option PyVal

/-- The hard-coded topic policy written by `deploy_guardrail`
(deploy_guardrail.py lines 105-115). -/
def deploy_topic_placeholder : PyVal :=
  .vdict [("topicsConfig", .vlist
    [.vdict [("name", .vstr "DefaultTopic"),
             ("definition", .vstr "General purpose topic for testing"),
             ("type", .vstr "DENY"),
             ("inputAction", .vstr "BLOCK"),
             ("outputAction", .vstr "BLOCK"),
             ("inputEnabled", .vbool true),
             ("outputEnabled", .vbool true)]])]

/-- The hard-coded content policy written by `deploy_guardrail`
(deploy_guardrail.py lines 116-126). -/
def deploy_content_placeholder : PyVal :=
  .vdict [("filtersConfig", .vlist
    [.vdict [("type", .vstr "HATE"),
             ("inputStrength", .vstr "LOW"),
             ("outputStrength", .vstr "LOW"),
             ("inputAction", .vstr "BLOCK"),
             ("outputAction", .vstr "BLOCK"),
             ("inputEnabled", .vbool true),
             ("outputEnabled", .vbool true)]])]

/-- The hard-coded contextual grounding policy written by `deploy_guardrail`
(deploy_guardrail.py lines 127-134). -/
def deploy_grounding_placeholder : PyVal :=
  .vdict [("filtersConfig", .vlist
    [.vdict [("type", .vstr "RELEVANCE"),
             ("threshold", .vfloat "0.7"),
             ("action", .vstr "BLOCK"),
             ("enabled", .vbool true)]])]

/-- The `update_guardrail` request assembled by `deploy_guardrail`
(deploy_guardrail.py lines 99-139) from the freshly read `guardrail_info`.
`ts` stands for `time.strftime("%Y-%m-%d %H:%M:%S")`.  The source's final
`{k: v for k, v in ... if v is not None}` filter removes nothing here,
since every value constructed is non-None. -/
def deploy_update_request (guardrail_id : String) (info : GuardrailInfo)
    (ts : String) : List (String × PyVal) :=
  [("guardrailIdentifier", .vstr guardrail_id),
   ("name", .vstr info.name),
   ("description", .vstr ("Activated via script on " ++ ts)),
   ("blockedInputMessaging", .vstr (info.blockedInputMessaging.getD "Request blocked by guardrail")),
   ("blockedOutputsMessaging", .vstr (info.blockedOutputsMessaging.getD "Response blocked by guardrail")),
   ("topicPolicyConfig", deploy_topic_placeholder),
   ("contentPolicyConfig", deploy_content_placeholder),
   ("contextualGroundingPolicyConfig", deploy_grounding_placeholder)]

/-- Conditionally added optional field, modelling
`if field in current_config: update_params[field] = current_config[field]`. -/
def addOptField (k : String) (v : Option PyVal) : List (String × PyVal) :=
  match v with
  | some x => [(k, x)]
  | none => []

/-- The `update_guardrail` request assembled by
`create_guardrail_version_from_config` to activate a freshly cut version
(create_guardrail_version.py lines 148-164): the base parameters plus the
enumerated optional fields `description`, `kmsKeyId`, `contentPolicyConfig`,
`sensitiveInformationPolicyConfig`, `wordPolicyConfig` copied from the
current remote configuration when present. -/
def version_activation_update_request (guardrail_id version_id : String)
    (current_config : GuardrailInfo) : List (String × PyVal) :=
  [("guardrailIdentifier", .vstr guardrail_id),
   ("name", .vstr current_config.name),
   ("version", .vstr version_id),
   ("blockedInputMessaging", .vstr (current_config.blockedInputMessaging.getD "I can\x27t help with that request.")),
   ("blockedOutputsMessaging", .vstr (current_config.blockedOutputsMessaging.getD "I can\x27t provide that information."))] ++
  addOptField "description" (current_config.description.map PyVal.vstr) ++
  addOptField "kmsKeyId" (current_config.kmsKeyId.map PyVal.vstr) ++
  addOptField "contentPolicyConfig" current_config.contentPolicyConfig ++
  addOptField "sensitiveInformationPolicyConfig" current_config.sensitiveInformationPolicyConfig ++
  addOptField "wordPolicyConfig" current_config.wordPolicyConfig

/-- A concrete remote configuration as read back by `get_guardrail`, whose
topic policy differs from the deployer's hard-coded placeholder. -/
def sampleRemoteInfo : GuardrailInfo :=
  { name := "BankingVoiceBotGuardrail-20240101"
    blockedInputMessaging := some "original input message"
    blockedOutputsMessaging := some "original output message"
    description := some "original description"
    kmsKeyId := some "arn:aws:kms:us-east-1:111122223333:key/original"
    topicPolicyConfig := some (.vstr "ORIGINAL_TOPIC_POLICY")
    contentPolicyConfig := some (.vstr "ORIGINAL_CONTENT_POLICY")
    contextualGroundingPolicyConfig := some (.vstr "ORIGINAL_GROUNDING_POLICY")
    sensitiveInformationPolicyConfig := some (.vstr "ORIGINAL_SENSITIVE_POLICY")
    wordPolicyConfig := some (.vstr "ORIGINAL_WORD_POLICY") }

/-- Word character in the sense of the regex `\b` boundary (`\w`):
letters, digits and underscore. -/
def isWordChar (c : Char) : Bool := c.isAlphanum || c = '_'

/-- A `\b` word boundary holds before a word character exactly when the
preceding character (if any) is not a word character. -/
def boundaryBefore (prev : Option Char) : Bool :=
  match prev with
  | none => true
  | some c => !(isWordChar c)

/-- Whether the list starts with a word character (used for the `\b`
boundary after a match). -/
def wordHead : List Char → Bool
  | [] => false
  | c :: _ => isWordChar c

/-- One attempted match of the number pattern
`\b\d+(?:\.\d+)?%?\b` (create_guardrail.py line 32) at the current
position, including the regex engine's backtracking over the optional
fraction and the optional percent sign against the trailing `\b`.
Returns the matched token and the remaining input. -/
def numTail (ints rest1 : List Char) : Option (List Char × List Char) :=
  match rest1 with
  | '%' :: r3 =>
    if wordHead r3 then some (ints ++ ['%'], r3)
    else some (ints, rest1)
  | _ => if !(wordHead rest1) then some (ints, rest1) else none

/-- Match of `\b\d+(?:\.\d+)?%?\b` at one position; see `numTail`. -/
def matchNumberAt (prev : Option Char) (l : List Char) : Option (List Char × List Char) :=
  if !(boundaryBefore prev) then none
  else
    let ints := l.takeWhile Char.isDigit
    let rest1 := l.dropWhile Char.isDigit
    if ints.isEmpty then none
    else
      match rest1 with
      | '.' :: r2 =>
        let frac := r2.takeWhile Char.isDigit
        let rest2 := r2.dropWhile Char.isDigit
        if frac.isEmpty then numTail ints rest1
        else
          (match rest2 with
           | '%' :: r3 =>
             if wordHead r3 then some (ints ++ '.' :: frac ++ ['%'], r3)
             else some (ints ++ '.' :: frac, rest2)
           | _ =>
             if !(wordHead rest2) then some (ints ++ '.' :: frac, rest2)
             else some (ints, rest1))
      | _ => numTail ints rest1

/-- Left-to-right non-overlapping scan of `re.findall` for the number
pattern.  The fuel argument equals the input length at the top-level call;
every step consumes at least one character, so it never runs out. -/
def findNumbersAux : Nat → Option Char → List Char → List (List Char)
  | 0, _, _ => []
  | _, _, [] => []
  | n + 1, prev, c :: rest =>
    match matchNumberAt prev (c :: rest) with
    | some (tok, after) => tok :: findNumbersAux n tok.getLast? after
    | none => findNumbersAux n (some c) rest

/-- Embedding of `re.findall(r'\b\d+(?:\.\d+)?%?\b', s)` used by
`check_factual_consistency` (create_guardrail.py lines 32-33).  The Python
code wraps the result in a `set`; subset and non-emptiness tests below are
insensitive to duplicates, so the raw match list is kept. -/
def findNumbers (s : String) : List String :=
  (findNumbersAux s.toList.length none s.toList).map (fun l => String.mk l)

/-- The lowercased month tokens of the date pattern
(create_guardrail.py line 51), as (short form, long-form suffix). -/
def monthTokens : List (String × String) :=
  [("jan", "uary"), ("feb", "ruary"), ("mar", "ch"), ("apr", "il"),
   ("may", ""), ("jun", "e"), ("jul", "y"), ("aug", "ust"),
   ("sep", "tember"), ("oct", "ober"), ("nov", "ember"), ("dec", "ember")]

/-- Case-insensitive literal match: consumes the pattern (given lowercase)
from the input, returning the consumed original characters and the rest. -/
def ciConsume : List Char → List Char → Option (List Char × List Char)
  | [], l => some ([], l)
  | _ :: _, [] => none
  | p :: ps, c :: cs =>
    if c.toLower = p then (ciConsume ps cs).map (fun q => (c :: q.1, q.2))
    else none

/-- Month alternation `(?:Jan(?:uary)?|Feb(?:ruary)?|...)` with
`re.IGNORECASE`: candidates at this position in the regex engine's
preference order (long form before short form). -/
def monthCandidates (l : List Char) : List (List Char × List Char) :=
  match monthTokens.findSome? (fun m =>
    (ciConsume m.1.toList l).map (fun q => (q, m.2))) with
  | none => []
  | some ((tk, r), suffix) =>
    (match ciConsume suffix.toList r with
     | some (tk2, r2) => [(tk ++ tk2, r2)]
     | none => []) ++ [(tk, r)]

/-- Tail `\s+\d{4}\b` of the month-name date alternative.  `\d{4}` cannot
backtrack, so it succeeds only when exactly four digits are available and
followed by a non-word character or the end. -/
def monthDateTail (tok l : List Char) : Option (List Char × List Char) :=
  let ws := l.takeWhile Char.isWhitespace
  let r := l.dropWhile Char.isWhitespace
  if ws.isEmpty then none
  else
    let ds := r.takeWhile Char.isDigit
    if ds.length = 4 && !(wordHead (r.drop 4)) then
      some (tok ++ ws ++ ds, r.drop 4)
    else none

/-- Choices for `\d{1,2}`: greedy two digits first, then one. -/
def dayLenCandidates (ds : List Char) : List Nat :=
  if 2 ≤ ds.length then [2, 1] else [1]

/-- Optional ordinal suffix and optional comma,
`(?:st|nd|rd|th)?,?`, with the engine's greedy backtracking order. -/
def monthDateAfterDay (tok l : List Char) : Option (List Char × List Char) :=
  let sufBranches :=
    match ["st", "nd", "rd", "th"].findSome? (fun s => ciConsume s.toList l) with
    | some (tk, r) => [(tok ++ tk, r), (tok, l)]
    | none => [(tok, l)]
  sufBranches.findSome? (fun b =>
    let commaBranches :=
      match b.2 with
      | ',' :: r2 => [(b.1 ++ [','], r2), b]
      | _ => [b]
    commaBranches.findSome? (fun b2 => monthDateTail b2.1 b2.2))

/-- First alternative of the date pattern:
`\b(?:Month)\s+\d{1,2}(?:st|nd|rd|th)?,?\s+\d{4}\b`. -/
def matchMonthDateAt (prev : Option Char) (l : List Char) : Option (List Char × List Char) :=
  if !(boundaryBefore prev) then none
  else
    (monthCandidates l).findSome? (fun m =>
      let ws := m.2.takeWhile Char.isWhitespace
      let r1 := m.2.dropWhile Char.isWhitespace
      if ws.isEmpty then none
      else
        let ds := r1.takeWhile Char.isDigit
        if ds.isEmpty then none
        else
          (dayLenCandidates ds).findSome? (fun k =>
            monthDateAfterDay (m.1 ++ ws ++ ds.take k) (r1.drop k)))

/-- Second alternative of the date pattern: one or two digits, a slash or
dash, one or two digits, a slash or dash, then two to four digits, inside
word boundaries.  The final `\d` run with its trailing boundary succeeds only
when the available digit run has length two to four and is followed by a
non-word character or the end. -/
def matchNumericDateAt (prev : Option Char) (l : List Char) : Option (List Char × List Char) :=
  if !(boundaryBefore prev) then none
  else
    let d1 := l.takeWhile Char.isDigit
    if d1.isEmpty then none
    else
      (dayLenCandidates d1).findSome? (fun k1 =>
        match l.drop k1 with
        | s1 :: r2 =>
          if s1 = '/' || s1 = '-' then
            let d2 := r2.takeWhile Char.isDigit
            if d2.isEmpty then none
            else
              (dayLenCandidates d2).findSome? (fun k2 =>
                match r2.drop k2 with
                | s2 :: r4 =>
                  if s2 = '/' || s2 = '-' then
                    let d3 := r4.takeWhile Char.isDigit
                    let r5 := r4.dropWhile Char.isDigit
                    if 2 ≤ d3.length && d3.length ≤ 4 && !(wordHead r5) then
                      some (d1.take k1 ++ s1 :: d2.take k2 ++ s2 :: d3, r5)
                    else none
                  else none
                | [] => none)
          else none
        | [] => none)

/-- Left-to-right scan of `re.findall` for the date pattern, trying the
month-name alternative before the numeric alternative at each position. -/
def findDatesAux : Nat → Option Char → List Char → List (List Char)
  | 0, _, _ => []
  | _, _, [] => []
  | n + 1, prev, c :: rest =>
    match (matchMonthDateAt prev (c :: rest)).orElse
        (fun _ => matchNumericDateAt prev (c :: rest)) with
    | some (tok, after) => tok :: findDatesAux n tok.getLast? after
    | none => findDatesAux n (some c) rest

/-- Embedding of the date extraction
`re.findall(date_pattern, s, re.IGNORECASE)` used by
`check_temporal_consistency` (create_guardrail.py lines 51-53). -/
def findDates (s : String) : List String :=
  (findDatesAux s.toList.length none s.toList).map (fun l => String.mk l)

/-- Models Python `sub in hay` substring membership. -/
def strContains (hay sub : String) : Bool :=
  (List.range (hay.toList.length + 1)).any
    (fun i => sub.toList.isPrefixOf (hay.toList.drop i))

/-- Models Python `str.lower()` (ASCII inputs). -/
def lowerStr (s : String) : String := String.mk (s.toList.map Char.toLower)

/-- The fixed sensitive financial term list of `check_factual_consistency`
(create_guardrail.py line 40). -/
def financial_terms : List String :=
  ["interest rate", "APR", "APY", "fee", "penalty", "balance", "withdrawal", "deposit"]

/-- Embedding of `ContextualGroundingCheck.check_factual_consistency`
(create_guardrail.py lines 20-45): fails when the response's numeric
tokens are non-empty and not a subset of the context's, then fails on the
first term of `financial_terms` with `term in response.lower() and
term not in context.lower()`, and otherwise passes. -/
def check_factual_consistency (response context : String) : Bool × String :=
  let nr := findNumbers response
  let nc := findNumbers context
  if !nr.isEmpty && !(nr.all (fun x => nc.contains x)) then
    (false, "Response contains numbers not present in context")
  else
    match financial_terms.find? (fun term =>
        strContains (lowerStr response) term && !(strContains (lowerStr context) term)) with
    | some term => (false, "Response introduces financial term " ++ term ++ " not in context")
    | none => (true, "")

/-- Embedding of `ContextualGroundingCheck.check_temporal_consistency`
(create_guardrail.py lines 48-59). -/
def check_temporal_consistency (response context : String) : Bool × String :=
  let rd := findDates response
  let cd := findDates context
  if !rd.isEmpty && !(rd.all (fun x => cd.contains x)) then
    (false, "Response introduces dates not present in context")
  else (true, "")

mutual
/-- JSON value tree, modelling the Python objects handled by the standard
library `json` codec used in `_encrypt_sensitive_data` / `_decrypt_data`.
Mutual lists keep the induction principles simple.  Floats are outside the
payload domain exercised by the sources. -/
inductive JVal : Type where
  | jnull : JVal
  | jbool : Bool → JVal
  | jnum : Int → JVal
  | jstr : List Char → JVal
  | jarr : JItems → JVal
  | jobj : JMembers → JVal
inductive JItems : Type where
  | inil : JItems
  | icons : JVal → JItems → JItems
inductive JMembers : Type where
  | mnil : JMembers
  | mcons : List Char → JVal → JMembers → JMembers
end

/-- JSON string escaping as produced by `json.dumps` for quote and
backslash; other characters pass through unchanged. -/
def escChars : List Char → List Char
  | [] => []
  | c :: r =>
    if c = '"' || c = '\\' then '\\' :: c :: escChars r
    else c :: escChars r

/-- Decimal digit character. -/
def digitChar (d : Nat) : Char := Char.ofNat (48 + d)

/-- Decimal representation of a natural number, as in Python `str`. -/
def natToChars (n : Nat) : List Char :=
  if n = 0 then ['0'] else ((Nat.digits 10 n).map digitChar).reverse

/-- Decimal representation of an integer, as in Python `str` /
`json.dumps`. -/
def intToChars : Int → List Char
  | .ofNat n => natToChars n
  | .negSucc n => '-' :: natToChars (n + 1)

mutual
/-- Serialisation model of `json.dumps(data, ensure_ascii=False)` with its
default separators (a comma-space between elements, a colon-space after
keys). -/
def dumpVal : JVal → List Char
  | .jnull => ['n', 'u', 'l', 'l']
  | .jbool true => ['t', 'r', 'u', 'e']
  | .jbool false => ['f', 'a', 'l', 's', 'e']
  | .jnum n => intToChars n
  | .jstr s => '"' :: escChars s ++ ['"']
  | .jarr .inil => ['[', ']']
  | .jarr (.icons v xs) => '[' :: dumpVal v ++ dumpItems xs ++ [']']
  | .jobj .mnil => ['\x7b', '\x7d']
  | .jobj (.mcons k v kvs) =>
    '\x7b' :: '"' :: escChars k ++ '"' :: ':' :: ' ' :: dumpVal v ++ dumpMembers kvs ++ ['\x7d']
def dumpItems : JItems → List Char
  | .inil => []
  | .icons v xs => ',' :: ' ' :: dumpVal v ++ dumpItems xs
def dumpMembers : JMembers → List Char
  | .mnil => []
  | .mcons k v kvs =>
    ',' :: ' ' :: '"' :: escChars k ++ '"' :: ':' :: ' ' :: dumpVal v ++ dumpMembers kvs
end

/-- JSON whitespace. -/
def isWsChar (c : Char) : Bool :=
  decide (c = ' ' ∨ c = '\t' ∨ c = '\n' ∨ c = '\r')

/-- Drop leading JSON whitespace. -/
def skipWs (l : List Char) : List Char := l.dropWhile isWsChar

/-- Body of a JSON string after the opening quote: consumes characters up
to the closing quote, interpreting a backslash as escaping the next
character. -/
def parseStringBody : List Char → Option (List Char × List Char)
  | [] => none
  | c :: r =>
    if c = '"' then some ([], r)
    else if c = '\\' then
      match r with
      | [] => none
      | c2 :: r2 => (parseStringBody r2).map (fun p => (c2 :: p.1, p.2))
    else (parseStringBody r).map (fun p => (c :: p.1, p.2))

/-- Consume a run of decimal digits, folding them onto `acc`. -/
def readDigits : List Char → Nat → Nat × List Char
  | [], acc => (acc, [])
  | c :: r, acc =>
    if c.isDigit then readDigits r (acc * 10 + (c.toNat - 48))
    else (acc, c :: r)

/-- Integer literal parser (optional minus sign, then digits). -/
def parseNum : List Char → Option (Int × List Char)
  | [] => none
  | c :: r =>
    if c = '-' then
      match r with
      | [] => none
      | c2 :: _ =>
        if c2.isDigit then
          let p := readDigits r 0
          some (-(p.1 : Int), p.2)
        else none
    else if c.isDigit then
      let p := readDigits (c :: r) 0
      some ((p.1 : Int), p.2)
    else none

/-- Parsing mode: a value, the items of an array after `[`, or the members
of an object after the opening brace. -/
inductive PMode where
  | pval
  | pitems
  | pmembers

/-- Recursive-descent JSON parser with explicit fuel (one unit per
recursive descent).  In `pitems` mode the result is always a `jarr`; in
`pmembers` mode always a `jobj`. -/
def parseJ : Nat → PMode → List Char → Option (JVal × List Char)
  | 0, _, _ => none
  | fuel + 1, .pval, l =>
    match skipWs l with
    | [] => none
    | c :: r =>
      if c = '"' then
        match parseStringBody r with
        | some p => some (.jstr p.1, p.2)
        | none => none
      else if c = '[' then
        match skipWs r with
        | c2 :: r2 => if c2 = ']' then some (.jarr .inil, r2) else parseJ fuel .pitems r
        | [] => none
      else if c = '\x7b' then
        match skipWs r with
        | c2 :: r2 => if c2 = '\x7d' then some (.jobj .mnil, r2) else parseJ fuel .pmembers r
        | [] => none
      else if c = 'n' then
        if r.take 3 = ['u', 'l', 'l'] then some (.jnull, r.drop 3) else none
      else if c = 't' then
        if r.take 3 = ['r', 'u', 'e'] then some (.jbool true, r.drop 3) else none
      else if c = 'f' then
        if r.take 4 = ['a', 'l', 's', 'e'] then some (.jbool false, r.drop 4) else none
      else
        match parseNum (c :: r) with
        | some p => some (.jnum p.1, p.2)
        | none => none
  | fuel + 1, .pitems, l =>
    match parseJ fuel .pval l with
    | none => none
    | some (v, r) =>
      match skipWs r with
      | [] => none
      | c :: r2 =>
        if c = ',' then
          match parseJ fuel .pitems r2 with
          | some (.jarr xs, r3) => some (.jarr (.icons v xs), r3)
          | _ => none
        else if c = ']' then some (.jarr (.icons v .inil), r2)
        else none
  | fuel + 1, .pmembers, l =>
    match skipWs l with
    | [] => none
    | c :: r =>
      if c = '"' then
        match parseStringBody r with
        | none => none
        | some (k, r2) =>
          match skipWs r2 with
          | [] => none
          | c2 :: r3 =>
            if c2 = ':' then
              match parseJ fuel .pval r3 with
              | none => none
              | some (v, r4) =>
                match skipWs r4 with
                | [] => none
                | c3 :: r5 =>
                  if c3 = ',' then
                    match parseJ fuel .pmembers r5 with
                    | some (.jobj kvs, r6) => some (.jobj (.mcons k v kvs), r6)
                    | _ => none
                  else if c3 = '\x7d' then some (.jobj (.mcons k v .mnil), r5)
                  else none
            else none
      else none

/-- Model of `json.loads`: parse one value and require only whitespace to
remain.  The fuel `2 * length + 2` is enough for any input (each two fuel
units consume at least one character). -/
def jsonLoads (l : List Char) : Option JVal :=
  match parseJ (2 * l.length + 2) .pval l with
  | some (v, r) => if skipWs r = [] then some v else none
  | none => none

/-- Ciphertext produced by the remote key service.  Modelled from the spec:
the remote Key Service (spec section 6) is an external collaborator; its
ciphertext is opaque to this system and is representable as the sealed
plaintext bound to the encryption context under which it was produced
(authenticated-context semantics).  The hex transport encoding applied by
`kms_manager.encrypt_data` and undone by `decrypt_data` is an inverse pair
and is elided. -/
structure KmsCiphertext where
  sealedPlaintext : List Char
  sealedContext : List (String × String)

/-- Response shape of `KMSKeyManager.encrypt_data`
(kms_manager.py lines 121-148). -/
structure EncryptResponse where
  CiphertextBlob : KmsCiphertext
  KeyId : String
  EncryptionAlgorithm : String

/-- Response shape of `KMSKeyManager.decrypt_data`
(kms_manager.py lines 150-175). -/
structure DecryptResponse where
  Plaintext : List Char
  KeyId : String
  EncryptionAlgorithm : String

/-- Embedding of `KMSKeyManager.encrypt_data`: encrypt under the given key
and context.  Modelled from the spec: the remote encrypt call itself
(section 6) always succeeds for an accessible key. -/
def kms_encrypt_data (key_id : String) (plaintext : List Char)
    (context : List (String × String)) : EncryptResponse :=
  { CiphertextBlob := { sealedPlaintext := plaintext, sealedContext := context }
    KeyId := key_id
    EncryptionAlgorithm := "SYMMETRIC_DEFAULT" }

/-- Embedding of `KMSKeyManager.decrypt_data`.  Modelled from the spec:
the remote decrypt call succeeds and returns the plaintext exactly when
the supplied encryption context matches the context the ciphertext was
sealed under, and otherwise raises a client error (authenticated-context
semantics, spec sections 4.5 and 6). -/
def kms_decrypt_data (ciphertext_blob : KmsCiphertext)
    (context : List (String × String)) : Except String DecryptResponse :=
  if ciphertext_blob.sealedContext = context then
    .ok { Plaintext := ciphertext_blob.sealedPlaintext
          KeyId := "key"
          EncryptionAlgorithm := "SYMMETRIC_DEFAULT" }
  else .error "InvalidCiphertextException"

/-- Payload domain of `_encrypt_sensitive_data`
(create_guardrail.py line 178): a string, a mapping, or a sequence. -/
inductive PyData where
  | pystr (s : List Char)
  | pydict (kvs : JMembers)
  | pylist (xs : JItems)

/-- Serialisation step of `_encrypt_sensitive_data`
(create_guardrail.py lines 190-193): mappings and sequences go through
`json.dumps`, anything else through `str`. -/
def serializeData : PyData → List Char
  | .pystr s => s
  | .pydict kvs => dumpVal (.jobj kvs)
  | .pylist xs => dumpVal (.jarr xs)

/-- The envelope dictionary returned by `_encrypt_sensitive_data`
(create_guardrail.py lines 202-207). -/
structure SensitiveEnvelope where
  encrypted : Bool
  data : KmsCiphertext
  key_id : String
  algorithm : String

/-- Python exceptions surfaced by the envelope wrappers. -/
inductive PyError where
  | nameError (name : String)
  | reraised (msg : String)

/-- Module-level names bound in `create_guardrail.py`: its imports
(lines 1-11) and its top-level definitions.  `logger` is not among them. -/
def create_guardrail_module_names : List String :=
  ["boto3", "os", "time", "uuid", "json", "re", "datetime", "timezone",
   "Dict", "List", "Optional", "Tuple", "Any", "Union", "Config",
   "load_dotenv", "KMSKeyManager", "ContextualGroundingCheck",
   "BankingGuardrailManager", "main"]

/-- Behaviour of the `except` handlers of `_encrypt_sensitive_data` and
`_decrypt_data` (create_guardrail.py lines 209-211 and 235-237): the
handler evaluates `logger.error(...)` and then re-raises; if the name
`logger` is not bound in the module, evaluating it raises `NameError`
instead. -/
def loggerHandlerOutcome (original : String) : PyError :=
  if "logger" ∈ create_guardrail_module_names then .reraised original
  else .nameError "logger"

/-- Embedding of `_encrypt_sensitive_data`'s try/except around the key
service call (create_guardrail.py lines 188-211), parameterised by the
outcome of that call. -/
def encrypt_sensitive_data_with (kmsResult : Except String EncryptResponse) :
    Except PyError SensitiveEnvelope :=
  match kmsResult with
  | .ok r => .ok { encrypted := true, data := r.CiphertextBlob,
                   key_id := r.KeyId, algorithm := r.EncryptionAlgorithm }
  | .error e => .error (loggerHandlerOutcome e)

/-- Embedding of `_encrypt_sensitive_data` (create_guardrail.py
lines 178-211) on the success path of the key service. -/
def encrypt_sensitive_data (data : PyData) (key_alias : String)
    (encryption_context : List (String × String)) : Except PyError SensitiveEnvelope :=
  encrypt_sensitive_data_with
    (.ok (kms_encrypt_data key_alias (serializeData data) encryption_context))

/-- Value returned by `_decrypt_data`: the structured `json.loads` result
when the decrypted text parses, the raw text otherwise. -/
inductive DecryptedVal where
  | parsed (j : JVal)
  | raw (s : List Char)

/-- Embedding of `_decrypt_data`'s try/except around the key service call
(create_guardrail.py lines 213-237), parameterised by the outcome of that
call. -/
def decrypt_data_with (kmsResult : Except String DecryptResponse) :
    Except PyError DecryptedVal :=
  match kmsResult with
  | .ok r =>
    .ok (match jsonLoads r.Plaintext with
         | some j => .parsed j
         | none => .raw r.Plaintext)
  | .error e => .error (loggerHandlerOutcome e)

/-- Embedding of `_decrypt_data` (create_guardrail.py lines 213-237). -/
def decrypt_data (envelope : SensitiveEnvelope)
    (encryption_context : List (String × String)) : Except PyError DecryptedVal :=
  decrypt_data_with (kms_decrypt_data envelope.data encryption_context)

/-- The value the round trip is expected to return, accounting for the
structured-to-text re-serialisation: mappings and sequences come back as
their parsed structured form, scalars as their string form after the
structured-parse fallback. -/
def reserializedValue : PyData → DecryptedVal
  | .pydict kvs => .parsed (.jobj kvs)
  | .pylist xs => .parsed (.jarr xs)
  | .pystr s =>
    match jsonLoads s with
    | some j => .parsed j
    | none => .raw s

/-- Continuation condition for the round-trip lemmas: only a following
digit could extend a just-parsed numeric token, so the rest must not start
with a digit.  Every separator the serialiser emits satisfies this. -/
def stopOK : List Char → Bool
  | [] => true
  | c :: _ => !c.isDigit

mutual
/-- Parser fuel needed for a value produced by `dumpVal`: one unit per
recursive descent of `parseJ`. -/
def jfuel : JVal → Nat
  | .jarr xs => 1 + ifuel xs
  | .jobj kvs => 1 + mfuel kvs
  | _ => 1
/-- Parser fuel needed for array items. -/
def ifuel : JItems → Nat
  | .inil => 1
  | .icons v xs => 1 + jfuel v + ifuel xs
/-- Parser fuel needed for object members. -/
def mfuel : JMembers → Nat
  | .mnil => 1
  | .mcons _ v kvs => 1 + jfuel v + mfuel kvs
end

/-! Theorems -/

/-- C1 (counterexample): a compiled document whose PROMPT_ATTACK content
filter has output strength HIGH while output filtering is disabled is
nevertheless accepted by `_validate_guardrail_config`, so the validator
does not return Invalid iff a required group is absent or the
PROMPT_ATTACK invariant is violated. -/
theorem validate_guardrail_config_accepts_prompt_attack_violation :
    promptAttackOutputViolation promptAttackBadConfig = true ∧
    validate_guardrail_config promptAttackBadConfig = (true, "") :=
  ⟨rfl, rfl⟩

/-- C1 (amended): `_validate_guardrail_config` returns Invalid iff at
least one required top-level field is absent, or one of the three policy
groups (content, word, topic) is present but not a dictionary; the
PROMPT_ATTACK strength/direction invariant is not checked. -/
theorem validate_guardrail_config_invalid_iff (config : List (String × PyVal)) :
    (validate_guardrail_config config).1 = false ↔
      (required_fields.any (fun f => !(hasKey config f))
        || !(isDict (pyGetD config "contentPolicyConfig" (.vdict [])))
        || !(isDict (pyGetD config "wordPolicyConfig" (.vdict [])))
        || !(isDict (pyGetD config "topicPolicyConfig" (.vdict [])))) = true := by
  unfold validate_guardrail_config
  have hfilter : (required_fields.filter (fun f => !(hasKey config f))).isEmpty = false ↔
      required_fields.any (fun f => !(hasKey config f)) = true := by
    rw [List.isEmpty_eq_false_iff_exists_mem, List.any_eq_true]
    constructor
    · rintro ⟨x, hx⟩
      obtain ⟨hmem, hp⟩ := List.mem_filter.mp hx
      exact ⟨x, hmem, hp⟩
    · rintro ⟨x, hx, hpx⟩
      exact ⟨x, List.mem_filter.mpr ⟨hx, hpx⟩⟩
  rcases h1 : (required_fields.filter (fun f => !(hasKey config f))).isEmpty with _ | _
  · simp only [h1, Bool.not_false, if_true]
    simp [hfilter.mp h1]
  · have : required_fields.any (fun f => !(hasKey config f)) = false := by
      by_contra hc
      have := hfilter.mpr (by revert hc; cases required_fields.any (fun f => !(hasKey config f)) <;> simp)
      simp [this] at h1
    simp only [h1, Bool.not_true, if_false, this, Bool.false_or]
    rcases h2 : isDict (pyGetD config "contentPolicyConfig" (.vdict [])) <;>
      rcases h3 : isDict (pyGetD config "wordPolicyConfig" (.vdict [])) <;>
        rcases h4 : isDict (pyGetD config "topicPolicyConfig" (.vdict [])) <;>
          simp [h2, h3, h4]

/-- C2 (counterexample): on the successful path of `create_banking_guardrail`
the remote KMS describe call happens strictly before the local
configuration validation, so a remote call does precede validation. -/
theorem kms_describe_precedes_validation :
    create_banking_guardrail_steps "BankingVoiceBotGuardrail-20240101"
        (some "arn:aws:kms:us-east-1:111122223333:key/k1")
        (fun _ => .ok ⟨"arn:aws:kms:us-east-1:111122223333:key/k1", "Enabled"⟩) =
      [DeployStep.kmsDescribe, DeployStep.validateConfig, DeployStep.createGuardrailCall] ∧
    isNetworkStep DeployStep.kmsDescribe = true :=
  ⟨rfl, rfl⟩

/-- C2 (amended): in every run of `create_banking_guardrail`, the remote
`create_guardrail` submission happens only after the local validation has
been run, but the remote KMS describe call always precedes the local
validation. -/
theorem create_banking_guardrail_validation_ordering
    (name : String) (kid : Option String)
    (describeKey : String → Except String KeyMetadata) :
    (DeployStep.createGuardrailCall ∈ create_banking_guardrail_steps name kid describeKey →
      (create_banking_guardrail_steps name kid describeKey).indexOf DeployStep.validateConfig <
        (create_banking_guardrail_steps name kid describeKey).indexOf DeployStep.createGuardrailCall) ∧
    (DeployStep.validateConfig ∈ create_banking_guardrail_steps name kid describeKey →
      (create_banking_guardrail_steps name kid describeKey).indexOf DeployStep.kmsDescribe <
        (create_banking_guardrail_steps name kid describeKey).indexOf DeployStep.validateConfig) := by
  cases kid with
  | none => simp [create_banking_guardrail_steps]
  | some k =>
    cases hdk : describeKey k with
    | error e => simp [create_banking_guardrail_steps, hdk]
    | ok meta =>
      by_cases hen : meta.KeyState = "Enabled"
      · have hval : (validate_guardrail_config
            (banking_guardrail_config name ++ [("kmsKeyId", PyVal.vstr k)])).1 = true := rfl
        simp [create_banking_guardrail_steps, hdk, hen, hval, List.indexOf, List.findIdx,
          List.findIdx.go]
        decide
      · simp [create_banking_guardrail_steps, hdk, hen]

/-- C2 (witness). -/
theorem create_banking_guardrail_validation_ordering_witness :
    (create_banking_guardrail_steps "g" (some "k")
        (fun _ => .ok ⟨"arn", "Enabled"⟩)).indexOf DeployStep.validateConfig <
      (create_banking_guardrail_steps "g" (some "k")
        (fun _ => .ok ⟨"arn", "Enabled"⟩)).indexOf DeployStep.createGuardrailCall :=
  (create_banking_guardrail_validation_ordering "g" (some "k")
    (fun _ => .ok ⟨"arn", "Enabled"⟩)).1 (by decide)

/-- C3 (counterexample): `deploy_guardrail` reads the remote configuration
but its update request replaces the topic policy with a hard-coded
placeholder differing from the value just read, and contains no version
pointer at all. -/
theorem deploy_update_replaces_topic_policy :
    sampleRemoteInfo.topicPolicyConfig = some (.vstr "ORIGINAL_TOPIC_POLICY") ∧
    pyGet (deploy_update_request "gr-1" sampleRemoteInfo "2024-01-01 00:00:00")
        "topicPolicyConfig" = some deploy_topic_placeholder ∧
    deploy_topic_placeholder ≠ PyVal.vstr "ORIGINAL_TOPIC_POLICY" ∧
    pyGet (deploy_update_request "gr-1" sampleRemoteInfo "2024-01-01 00:00:00")
        "version" = none :=
  ⟨rfl, rfl, fun h => PyVal.noConfusion h, rfl⟩

/-- C3 (amended): the version-activation update of
`create_guardrail_version_from_config` sets the version pointer and
carries forward the name, the messaging defaults, and exactly the
enumerated optional fields (description, kmsKeyId, contentPolicyConfig,
sensitiveInformationPolicyConfig, wordPolicyConfig) from the
just-read remote configuration, dropping topicPolicyConfig and
contextualGroundingPolicyConfig, while `deploy_guardrail`'s update
carries forward only the name and messaging and replaces the topic,
content and grounding policies with hard-coded placeholders and sends no
version pointer. -/
theorem activation_update_field_carryforward (gid ver ts : String)
    (info : GuardrailInfo) :
    pyGet (version_activation_update_request gid ver info) "version" = some (.vstr ver) ∧
    pyGet (version_activation_update_request gid ver info) "name" = some (.vstr info.name) ∧
    pyGet (version_activation_update_request gid ver info) "description"
      = info.description.map PyVal.vstr ∧
    pyGet (version_activation_update_request gid ver info) "kmsKeyId"
      = info.kmsKeyId.map PyVal.vstr ∧
    pyGet (version_activation_update_request gid ver info) "contentPolicyConfig"
      = info.contentPolicyConfig ∧
    pyGet (version_activation_update_request gid ver info) "sensitiveInformationPolicyConfig"
      = info.sensitiveInformationPolicyConfig ∧
    pyGet (version_activation_update_request gid ver info) "wordPolicyConfig"
      = info.wordPolicyConfig ∧
    pyGet (version_activation_update_request gid ver info) "topicPolicyConfig" = none ∧
    pyGet (version_activation_update_request gid ver info) "contextualGroundingPolicyConfig" = none ∧
    pyGet (deploy_update_request gid info ts) "name" = some (.vstr info.name) ∧
    pyGet (deploy_update_request gid info ts) "topicPolicyConfig" = some deploy_topic_placeholder ∧
    pyGet (deploy_update_request gid info ts) "contentPolicyConfig" = some deploy_content_placeholder ∧
    pyGet (deploy_update_request gid info ts) "contextualGroundingPolicyConfig"
      = some deploy_grounding_placeholder ∧
    pyGet (deploy_update_request gid info ts) "version" = none := by
  obtain ⟨nm, bim, bom, desc, kmsid, top, cont, grnd, sens, word⟩ := info
  cases desc <;> cases kmsid <;> cases cont <;> cases sens <;> cases word <;>
    exact ⟨rfl, rfl, rfl, rfl, rfl, rfl, rfl, rfl, rfl, rfl, rfl, rfl, rfl, rfl⟩

/-- The poll count never exceeds the starting index plus the remaining
attempt budget. -/
theorem pollGuardrailLoop_count_le (statuses : Nat → String) (i n : Nat) :
    (pollGuardrailLoop statuses i n).2 ≤ i + n := by
  induction n generalizing i with
  | zero => simp [pollGuardrailLoop]
  | succ n ih =>
    unfold pollGuardrailLoop
    by_cases h1 : statuses i = "ACTIVE"
    · simp [h1]
    · by_cases h2 : statuses i = "FAILED" ∨ statuses i = "ERROR"
      · simp [h1, h2]
      · by_cases h3 : statuses i = "READY"
        · simp [h1, h2, h3]
        · simp [h1, h2, h3]
          calc (pollGuardrailLoop statuses (i + 1) n).2 ≤ (i + 1) + n := ih (i + 1)
            _ ≤ i + (n + 1) := by omega

/-- When no status is ever terminal, the loop exhausts its budget and
returns the failure outcome. -/
theorem pollGuardrailLoop_nonterminal (statuses : Nat → String)
    (h : ∀ j, statuses j ∉ terminalStatuses) (i n : Nat) :
    pollGuardrailLoop statuses i n = (false, i + n) := by
  induction n generalizing i with
  | zero => simp [pollGuardrailLoop]
  | succ n ih =>
    have hi := h i
    simp only [terminalStatuses, List.mem_cons, List.mem_singleton, not_or,
      List.not_mem_nil, or_false] at hi
    unfold pollGuardrailLoop
    simp only [hi.1, hi.2.1, hi.2.2.1, hi.2.2.2, if_false, or_self, ite_false]
    rw [ih (i + 1)]
    have harith : i + 1 + n = i + (n + 1) := by omega
    rw [harith]

/-- The loop stops at the first terminal status: if the first `j` statuses
are non-terminal and the status at index `j` (within budget) is terminal,
exactly `j + 1` polls happen and the outcome is success exactly for ACTIVE
and READY. -/
theorem pollGuardrailLoop_first_terminal (statuses : Nat → String) :
    ∀ (j i n : Nat), j < n →
    (∀ m, m < j → statuses (i + m) ∉ terminalStatuses) →
    statuses (i + j) ∈ terminalStatuses →
    pollGuardrailLoop statuses i n =
      (decide (statuses (i + j) = "ACTIVE" ∨ statuses (i + j) = "READY"), i + j + 1) := by
  intro j
  induction j with
  | zero =>
    intro i n hj _ hterm
    obtain ⟨n, rfl⟩ : ∃ m, n = m + 1 := ⟨n - 1, by omega⟩
    simp only [Nat.add_zero] at hterm ⊢
    simp only [terminalStatuses, List.mem_cons, List.mem_singleton,
      List.not_mem_nil, or_false] at hterm
    unfold pollGuardrailLoop
    rcases hterm with h | h | h | h <;> simp [h]
  | succ j ih =>
    intro i n hj hpre hterm
    obtain ⟨n, rfl⟩ : ∃ m, n = m + 1 := ⟨n - 1, by omega⟩
    have h0 := hpre 0 (by omega)
    simp only [Nat.add_zero] at h0
    simp only [terminalStatuses, List.mem_cons, List.mem_singleton, not_or,
      List.not_mem_nil, or_false] at h0
    unfold pollGuardrailLoop
    simp only [h0.1, h0.2.1, h0.2.2.1, h0.2.2.2, if_false, or_self, ite_false]
    have := ih (i + 1) n (by omega)
      (fun m hm => by
        have := hpre (m + 1) (by omega)
        simpa [Nat.add_assoc, Nat.add_comm 1 m] using this)
      (by
        have : i + 1 + j = i + (j + 1) := by omega
        rw [this]; exact hterm)
    rw [this]
    have harith : i + 1 + j = i + (j + 1) := by omega
    rw [harith]

/-- C4: the poll loop never exceeds its bound and stops at the first
terminal status among ACTIVE, READY, FAILED, ERROR: with bound 5 on the
sequence [CREATING, CREATING, ACTIVE] it succeeds after exactly 3 polls;
on a sequence with no terminal status it performs exactly the bound many
polls and no more. -/
theorem poll_loop_bounded_first_terminal :
    pollUntilTerminal 5 exampleStatusSeq = (true, 3) ∧
    (∀ maxAttempts statuses, (pollUntilTerminal maxAttempts statuses).2 ≤ maxAttempts) ∧
    (∀ maxAttempts statuses, (∀ j, statuses j ∉ terminalStatuses) →
      pollUntilTerminal maxAttempts statuses = (false, maxAttempts)) ∧
    (∀ maxAttempts statuses j, j < maxAttempts →
      (∀ m, m < j → statuses m ∉ terminalStatuses) →
      statuses j ∈ terminalStatuses →
      pollUntilTerminal maxAttempts statuses =
        (decide (statuses j = "ACTIVE" ∨ statuses j = "READY"), j + 1)) := by
  refine ⟨by decide, ?_, ?_, ?_⟩
  · intro m s
    simpa using pollGuardrailLoop_count_le s 0 m
  · intro m s h
    simpa using pollGuardrailLoop_nonterminal s h 0 m
  · intro m s j hj hpre hterm
    simpa using pollGuardrailLoop_first_terminal s j 0 m hj
      (by simpa using hpre) (by simpa using hterm)

/-- C4 (witness). -/
theorem poll_loop_bounded_first_terminal_witness :
    pollUntilTerminal 5 (fun _ => "CREATING") = (false, 5) :=
  poll_loop_bounded_first_terminal.2.2.1 5 (fun _ => "CREATING")
    (fun _ => by show "CREATING" ∉ terminalStatuses; decide)

/-- C5 (counterexample): exhausting the hard-coded bound of 10 attempts
and observing FAILED produce the same caller-visible outcome `False`, so
the timeout outcome is not distinct from the failure outcome; and the
bound is the literal 10, not a caller-supplied parameter. -/
theorem timeout_and_failed_same_outcome :
    pollUntilTerminal deploy_max_attempts (fun _ => "CREATING") = (false, 10) ∧
    pollUntilTerminal deploy_max_attempts (fun _ => "FAILED") = (false, 1) ∧
    (pollUntilTerminal deploy_max_attempts (fun _ => "CREATING")).1 =
      (pollUntilTerminal deploy_max_attempts (fun _ => "FAILED")).1 :=
  ⟨rfl, rfl, rfl⟩

/-- C5 (amended): the polling bound of `deploy_guardrail` is the
hard-coded literal 10; when it is exhausted without a terminal status the
function returns `False`, the same Boolean outcome it returns when the
remote status is FAILED or ERROR (the two cases differ only in printed
text). -/
theorem poll_bound_hardcoded_timeout_indistinct :
    deploy_max_attempts = 10 ∧
    (∀ statuses, (∀ j, statuses j ∉ terminalStatuses) →
      pollUntilTerminal deploy_max_attempts statuses = (false, deploy_max_attempts)) ∧
    (pollUntilTerminal deploy_max_attempts (fun _ => "FAILED")).1 = false ∧
    (∀ statuses, (∀ j, statuses j ∉ terminalStatuses) →
      (pollUntilTerminal deploy_max_attempts statuses).1 =
        (pollUntilTerminal deploy_max_attempts (fun _ => "FAILED")).1) := by
  refine ⟨rfl, ?_, rfl, ?_⟩
  · intro s h
    simpa using pollGuardrailLoop_nonterminal s h 0 deploy_max_attempts
  · intro s h
    have := pollGuardrailLoop_nonterminal s h 0 deploy_max_attempts
    simp [pollUntilTerminal, this]
    rfl

/-- C5 (witness). -/
theorem poll_bound_hardcoded_timeout_indistinct_witness :
    pollUntilTerminal deploy_max_attempts (fun _ => "CREATING") = (false, deploy_max_attempts) :=
  poll_bound_hardcoded_timeout_indistinct.2.1 (fun _ => "CREATING")
    (fun _ => by show "CREATING" ∉ terminalStatuses; decide)

/-- C6 (counterexample): for response "fee" and empty context every
numeric token and date token of the response occurs in the context (both
sets are empty), yet the factual-consistency check fails on the financial
term list, so token grounding alone does not make both checks pass. -/
theorem financial_term_fails_despite_token_subset :
    (findNumbers "fee").all (fun t => (findNumbers "").contains t) = true ∧
    (findDates "fee").all (fun t => (findDates "").contains t) = true ∧
    check_factual_consistency "fee" "" =
      (false, "Response introduces financial term fee not in context") ∧
    check_temporal_consistency "fee" "" = (true, "") :=
  ⟨rfl, rfl, rfl, rfl⟩

/-- C6 (amended): whenever every numeric token and every date token of the
response also occurs in the context and, additionally, every sensitive
financial term contained in the lowercased response is also contained in
the lowercased context, both the factual and the temporal consistency
check pass; in particular the empty response passes both checks. -/
theorem grounded_tokens_imply_checks_pass (r c : String)
    (hnum : (findNumbers r).all (fun t => (findNumbers c).contains t) = true)
    (hdate : (findDates r).all (fun t => (findDates c).contains t) = true)
    (hterm : financial_terms.all
      (fun t => !(strContains (lowerStr r) t) || strContains (lowerStr c) t) = true) :
    (check_factual_consistency r c).1 = true ∧
    (check_temporal_consistency r c).1 = true := by
  constructor
  · have h2 : financial_terms.find? (fun term =>
        strContains (lowerStr r) term && !(strContains (lowerStr c) term)) = none := by
      rw [List.find?_eq_none]
      intro t ht
      have h := (List.all_eq_true.mp hterm) t ht
      cases hA : strContains (lowerStr r) t <;>
        cases hB : strContains (lowerStr c) t <;> simp_all
    have hcond : (!(findNumbers r).isEmpty &&
        !((findNumbers r).all (fun x => (findNumbers c).contains x))) = false := by
      rw [hnum]
      simp
    simp only [check_factual_consistency, hcond, Bool.false_eq_true, if_false, h2]
  · have hcond : (!(findDates r).isEmpty &&
        !((findDates r).all (fun x => (findDates c).contains x))) = false := by
      rw [hdate]
      simp
    simp only [check_temporal_consistency, hcond, Bool.false_eq_true, if_false]

/-- C6 (witness): applies the amended theorem at a concrete pair. -/
theorem grounded_tokens_imply_checks_pass_witness :
    (check_factual_consistency "ok" "").1 = true ∧
    (check_temporal_consistency "ok" "").1 = true :=
  grounded_tokens_imply_checks_pass "ok" "" (by decide) (by decide) (by decide)

/-- C7: the financial-term comparison lowercases the response and the
context but not the term itself, so the uppercase list entries APR and APY
can never match any response: a response containing "apr" or "APR"
absent from the context still passes the factual-consistency check, while
a lowercase-listed term such as "fee" is detected. -/
theorem uppercase_financial_terms_never_detected :
    "APR" ∈ financial_terms ∧
    check_factual_consistency "apr" "" = (true, "") ∧
    check_factual_consistency "The APR is high" "" = (true, "") ∧
    check_factual_consistency "fee" "" =
      (false, "Response introduces financial term fee not in context") :=
  ⟨by decide, rfl, rfl, rfl⟩

/-- C8 (counterexample): the `create_guardrail_version` request issued by
`GuardrailDeployer.create_guardrail_version` carries no client request
token. -/
theorem deployer_version_call_lacks_token :
    strLookup (deployer_create_guardrail_version_params "gr-123" "2024-01-01 00:00:00")
      "clientRequestToken" = none :=
  rfl

/-- C8 (amended): the version-creation call of
`create_guardrail_version_from_config` carries the freshly generated
uuid4 client request token, but the version-creation call of
`GuardrailDeployer.create_guardrail_version` carries no client request
token at all. -/
theorem version_request_token_paths (gid token ts : String)
    (description : Option String) :
    strLookup (create_guardrail_version_params gid token description)
      "clientRequestToken" = some token ∧
    strLookup (deployer_create_guardrail_version_params gid ts)
      "clientRequestToken" = none := by
  cases description <;> exact ⟨rfl, rfl⟩

/-- C10: the except handlers of `_encrypt_sensitive_data` and
`_decrypt_data` reference the name `logger`, which is bound nowhere in
module `create_guardrail.py`, so any key-service failure inside them is
surfaced to the caller as a NameError instead of the original error. -/
theorem logger_name_error_masks_failures (e : String) :
    create_guardrail_module_names.contains "logger" = false ∧
    encrypt_sensitive_data_with (.error e) = .error (.nameError "logger") ∧
    decrypt_data_with (.error e) = .error (.nameError "logger") :=
  ⟨rfl, rfl, rfl⟩

theorem skipWs_cons_not_ws {c : Char} (h : isWsChar c = false) (l : List Char) :
    skipWs (c :: l) = c :: l := by
  simp [skipWs, List.dropWhile, h]

theorem skipWs_ws_append : ∀ (ws : List Char), (∀ c ∈ ws, isWsChar c = true) →
    ∀ l, skipWs (ws ++ l) = skipWs l
  | [], _, l => by simp
  | c :: ws, h, l => by
    have hc := h c (by simp)
    rw [List.cons_append]
    simp only [skipWs, List.dropWhile, hc]
    exact skipWs_ws_append ws (fun d hd => h d (by simp [hd])) l

theorem parseStringBody_escChars (s rest : List Char) :
    parseStringBody (escChars s ++ '"' :: rest) = some (s, rest) := by
  induction s with
  | nil =>
    show parseStringBody ('"' :: rest) = some ([], rest)
    unfold parseStringBody
    simp
  | cons c s ih =>
    by_cases hc : c = '"' ∨ c = '\\'
    · have he : escChars (c :: s) = '\\' :: c :: escChars s := by
        rcases hc with rfl | rfl <;> simp [escChars]
      rw [he, List.cons_append, List.cons_append, parseStringBody.eq_def]
      simp [ih]
    · rw [not_or] at hc
      obtain ⟨h1, h2⟩ := hc
      have he : escChars (c :: s) = c :: escChars s := by
        simp [escChars, h1, h2]
      rw [he, List.cons_append, parseStringBody.eq_def]
      simp [h1, h2, ih]

theorem digitChar_isDigit {d : Nat} (h : d < 10) : (digitChar d).isDigit = true := by
  interval_cases d <;> decide

theorem digitChar_val {d : Nat} (h : d < 10) : (digitChar d).toNat - 48 = d := by
  interval_cases d <;> decide

theorem isDigit_not_ws {c : Char} (h : c.isDigit = true) : isWsChar c = false := by
  unfold isWsChar
  rw [decide_eq_false_iff_not]
  rintro (rfl | rfl | rfl | rfl) <;> exact absurd h (by decide)

theorem isDigit_ne {c : Char} (h : c.isDigit = true) :
    c ≠ '"' ∧ c ≠ '[' ∧ c ≠ '\x7b' ∧ c ≠ 'n' ∧ c ≠ 't' ∧ c ≠ 'f' ∧ c ≠ '-' ∧
      c ≠ ']' ∧ c ≠ '\x7d' ∧ c ≠ ',' ∧ c ≠ ':' := by
  refine ⟨?_, ?_, ?_, ?_, ?_, ?_, ?_, ?_, ?_, ?_, ?_⟩ <;>
    (rintro rfl; exact absurd h (by decide))

theorem readDigits_append (ds rest : List Char) (acc : Nat)
    (hds : ∀ c ∈ ds, c.isDigit = true) (hrest : stopOK rest = true) :
    readDigits (ds ++ rest) acc =
      (ds.foldl (fun a c => a * 10 + (c.toNat - 48)) acc, rest) := by
  induction ds generalizing acc with
  | nil =>
    cases rest with
    | nil => simp [readDigits]
    | cons c r =>
      have hcc : c.isDigit = false := by simpa [stopOK] using hrest
      simp [readDigits, hcc]
  | cons c ds ih =>
    have hc := hds c (by simp)
    rw [List.cons_append, readDigits.eq_def]
    simp only [hc, if_pos, List.foldl_cons]
    exact ih _ (fun d hd => hds d (by simp [hd]))

theorem foldr_digits_eq_ofDigits (L : List Nat) :
    L.foldr (fun d a => a * 10 + d) 0 = Nat.ofDigits 10 L := by
  induction L with
  | nil => simp [Nat.ofDigits]
  | cons d L ih =>
    rw [List.foldr_cons, ih, Nat.ofDigits_cons]
    ring

theorem natToChars_all_digit (n : Nat) : ∀ c ∈ natToChars n, c.isDigit = true := by
  intro c hc
  unfold natToChars at hc
  split at hc
  · simp at hc
    subst hc
    decide
  · simp only [List.mem_reverse, List.mem_map] at hc
    obtain ⟨d, hd, rfl⟩ := hc
    exact digitChar_isDigit (Nat.digits_lt_base (by norm_num) hd)

theorem natToChars_ne_nil (n : Nat) : natToChars n ≠ [] := by
  unfold natToChars
  split
  · simp
  · next h =>
    simp only [ne_eq, List.reverse_eq_nil_iff, List.map_eq_nil_iff]
    exact Nat.digits_ne_nil_iff_ne_zero.mpr h

theorem readDigits_natToChars (n : Nat) (rest : List Char) (hrest : stopOK rest = true) :
    readDigits (natToChars n ++ rest) 0 = (n, rest) := by
  rw [readDigits_append _ _ _ (natToChars_all_digit n) hrest]
  congr 1
  unfold natToChars
  split
  · next h => subst h; decide
  · rw [List.foldl_reverse]
    have hmap : ∀ (L : List Nat), (∀ d ∈ L, d < 10) →
        ((L.map digitChar).foldr (fun x y => y * 10 + (x.toNat - 48)) 0)
          = L.foldr (fun d a => a * 10 + d) 0 := by
      intro L hL
      induction L with
      | nil => simp
      | cons d L ihL =>
        simp only [List.map_cons, List.foldr_cons]
        rw [ihL (fun x hx => hL x (by simp [hx])), digitChar_val (hL d (by simp))]
    rw [hmap _ (fun d hd => Nat.digits_lt_base (by norm_num) hd),
      foldr_digits_eq_ofDigits, Nat.ofDigits_digits]

theorem natToChars_cons (n : Nat) :
    ∃ c cs, natToChars n = c :: cs ∧ c.isDigit = true := by
  cases h : natToChars n with
  | nil => exact absurd h (natToChars_ne_nil n)
  | cons c cs =>
    refine ⟨c, cs, rfl, natToChars_all_digit n c ?_⟩
    rw [h]
    simp

theorem parseNum_intToChars (n : Int) (rest : List Char) (hrest : stopOK rest = true) :
    parseNum (intToChars n ++ rest) = some (n, rest) := by
  cases n with
  | ofNat m =>
    obtain ⟨c, cs, hc, hcd⟩ := natToChars_cons m
    have hne := isDigit_ne hcd
    rw [show intToChars (Int.ofNat m) = natToChars m from rfl, hc, List.cons_append,
      parseNum.eq_def]
    simp only [hne.2.2.2.2.2.2.1, if_false, hcd, if_pos, if_true]
    rw [← List.cons_append, ← hc, readDigits_natToChars m rest hrest]
    rfl
  | negSucc m =>
    obtain ⟨c, cs, hc, hcd⟩ := natToChars_cons (m + 1)
    rw [show intToChars (Int.negSucc m) = '-' :: natToChars (m + 1) from rfl,
      List.cons_append, parseNum.eq_def]
    simp only [if_pos]
    rw [hc, List.cons_append]
    simp only [hcd, if_pos, if_true]
    rw [← List.cons_append, ← hc, readDigits_natToChars (m + 1) rest hrest]
    have : -((m + 1 : Nat) : Int) = Int.negSucc m := by
      rw [Int.negSucc_eq]
      push_cast
      ring
    rw [this]

theorem jfuel_pos :
    (∀ v : JVal, 1 ≤ jfuel v) ∧ (∀ xs : JItems, 1 ≤ ifuel xs) ∧
      (∀ kvs : JMembers, 1 ≤ mfuel kvs) := by
  refine ⟨?_, ?_, ?_⟩
  · intro v
    cases v <;> simp [jfuel]
  · intro xs
    cases xs with
    | inil => simp [ifuel]
    | icons v ys => simp [ifuel]; omega
  · intro kvs
    cases kvs with
    | mnil => simp [mfuel]
    | mcons k v ms => simp [mfuel]; omega

theorem dumpVal_head (v : JVal) :
    ∃ c cs, dumpVal v = c :: cs ∧ isWsChar c = false ∧ c ≠ ']' ∧ c ≠ '\x7d' := by
  cases v with
  | jnull => exact ⟨'n', ['u', 'l', 'l'], by simp [dumpVal], by decide, by decide, by decide⟩
  | jbool b =>
    cases b
    · exact ⟨'f', ['a', 'l', 's', 'e'], by simp [dumpVal], by decide, by decide, by decide⟩
    · exact ⟨'t', ['r', 'u', 'e'], by simp [dumpVal], by decide, by decide, by decide⟩
  | jnum n =>
    cases n with
    | ofNat m =>
      obtain ⟨c, cs, hc, hcd⟩ := natToChars_cons m
      exact ⟨c, cs, by simp [dumpVal, intToChars, hc], isDigit_not_ws hcd,
        (isDigit_ne hcd).2.2.2.2.2.2.2.1, (isDigit_ne hcd).2.2.2.2.2.2.2.2.1⟩
    | negSucc m =>
      exact ⟨'-', natToChars (m + 1), by simp [dumpVal, intToChars], by decide, by decide, by decide⟩
  | jstr s => exact ⟨'"', escChars s ++ ['"'], by simp [dumpVal], by decide, by decide, by decide⟩
  | jarr xs =>
    cases xs with
    | inil => exact ⟨'[', [']'], by simp [dumpVal], by decide, by decide, by decide⟩
    | icons v ys =>
      exact ⟨'[', dumpVal v ++ (dumpItems ys ++ [']']), by simp [dumpVal],
        by decide, by decide, by decide⟩
  | jobj kvs =>
    cases kvs with
    | mnil => exact ⟨'\x7b', ['\x7d'], by simp [dumpVal], by decide, by decide, by decide⟩
    | mcons k v ms =>
      exact ⟨'\x7b',
        '"' :: (escChars k ++ '"' :: ':' :: ' ' :: (dumpVal v ++ (dumpMembers ms ++ ['\x7d']))),
        by simp [dumpVal], by decide, by decide, by decide⟩

theorem parseJ_pval_other (fuel : Nat) (c : Char) (r : List Char)
    (hcw : isWsChar c = false) (h1 : c ≠ '"') (h2 : c ≠ '[') (h3 : c ≠ '\x7b')
    (h4 : c ≠ 'n') (h5 : c ≠ 't') (h6 : c ≠ 'f') :
    parseJ (fuel + 1) .pval (c :: r) =
      (parseNum (c :: r)).map (fun p => (JVal.jnum p.1, p.2)) := by
  simp only [parseJ]
  rw [skipWs_cons_not_ws hcw]
  simp only [h1, h2, h3, h4, h5, h6, if_false, ite_false]
  cases hp : parseNum (c :: r) <;> simp [hp]

theorem parseJ_dump : ∀ fuel : Nat,
    (∀ (ws : List Char) (v : JVal) (rest : List Char),
      (∀ c ∈ ws, isWsChar c = true) → jfuel v ≤ fuel → stopOK rest = true →
      parseJ fuel .pval (ws ++ (dumpVal v ++ rest)) = some (v, rest)) ∧
    (∀ (ws : List Char) (v : JVal) (xs : JItems) (rest : List Char),
      (∀ c ∈ ws, isWsChar c = true) → ifuel (.icons v xs) ≤ fuel → stopOK rest = true →
      parseJ fuel .pitems (ws ++ (dumpVal v ++ (dumpItems xs ++ ']' :: rest))) =
        some (.jarr (.icons v xs), rest)) ∧
    (∀ (ws k : List Char) (v : JVal) (kvs : JMembers) (rest : List Char),
      (∀ c ∈ ws, isWsChar c = true) → mfuel (.mcons k v kvs) ≤ fuel → stopOK rest = true →
      parseJ fuel .pmembers
          (ws ++ ('"' :: (escChars k ++ '"' :: ':' :: ' ' ::
            (dumpVal v ++ (dumpMembers kvs ++ '\x7d' :: rest))))) =
        some (.jobj (.mcons k v kvs), rest)) := by
  intro fuel
  induction fuel with
  | zero =>
    refine ⟨?_, ?_, ?_⟩
    · intro ws v rest _ hf _
      exact absurd hf (by have := jfuel_pos.1 v; omega)
    · intro ws v xs rest _ hf _
      exact absurd hf (by have := jfuel_pos.2.1 (JItems.icons v xs); omega)
    · intro ws k v kvs rest _ hf _
      exact absurd hf (by have := jfuel_pos.2.2 (JMembers.mcons k v kvs); omega)
  | succ fuel ih =>
    obtain ⟨ih1, ih2, ih3⟩ := ih
    refine ⟨?_, ?_, ?_⟩
    · intro ws v rest hws hf hstop
      cases v with
      | jnull =>
        rw [show dumpVal .jnull = ['n', 'u', 'l', 'l'] from by simp [dumpVal]]
        simp only [parseJ]
        rw [skipWs_ws_append ws hws, List.cons_append, skipWs_cons_not_ws (by decide)]
        simp
      | jbool b =>
        cases b
        · rw [show dumpVal (.jbool false) = ['f', 'a', 'l', 's', 'e'] from by simp [dumpVal]]
          simp only [parseJ]
          rw [skipWs_ws_append ws hws, List.cons_append, skipWs_cons_not_ws (by decide)]
          simp
        · rw [show dumpVal (.jbool true) = ['t', 'r', 'u', 'e'] from by simp [dumpVal]]
          simp only [parseJ]
          rw [skipWs_ws_append ws hws, List.cons_append, skipWs_cons_not_ws (by decide)]
          simp
      | jnum n =>
        rw [show dumpVal (.jnum n) = intToChars n from by simp [dumpVal]]
        have hhead : ∃ c cs, intToChars n = c :: cs ∧ isWsChar c = false ∧
            c ≠ '"' ∧ c ≠ '[' ∧ c ≠ '\x7b' ∧ c ≠ 'n' ∧ c ≠ 't' ∧ c ≠ 'f' := by
          cases n with
          | ofNat m =>
            obtain ⟨c, cs, hc, hcd⟩ := natToChars_cons m
            have hne := isDigit_ne hcd
            exact ⟨c, cs, by simpa [intToChars] using hc, isDigit_not_ws hcd,
              hne.1, hne.2.1, hne.2.2.1, hne.2.2.2.1, hne.2.2.2.2.1, hne.2.2.2.2.2.1⟩
          | negSucc m =>
            exact ⟨'-', natToChars (m + 1), by simp [intToChars], by decide, by decide,
              by decide, by decide, by decide, by decide⟩
        obtain ⟨c, cs, hc, hcw, h1, h2, h3, h4, h5, h6⟩ := hhead
        have hrw : intToChars n ++ rest = c :: (cs ++ rest) := by rw [hc]; rfl
        calc parseJ (fuel + 1) .pval (ws ++ (intToChars n ++ rest))
            = parseJ (fuel + 1) .pval (intToChars n ++ rest) := by
              simp only [parseJ]
              rw [skipWs_ws_append ws hws, hrw, skipWs_cons_not_ws hcw]
          _ = some (.jnum n, rest) := by
              rw [hrw, parseJ_pval_other fuel c (cs ++ rest) hcw h1 h2 h3 h4 h5 h6,
                ← hrw, parseNum_intToChars n rest hstop]
              rfl
      | jstr s =>
        rw [show dumpVal (.jstr s) = '"' :: (escChars s ++ ['"']) from by simp [dumpVal]]
        simp only [parseJ]
        rw [skipWs_ws_append ws hws, List.cons_append, skipWs_cons_not_ws (by decide)]
        have hr : (escChars s ++ ['"']) ++ rest = escChars s ++ '"' :: rest := by
          rw [List.append_assoc]
          rfl
        simp only [if_pos, hr, parseStringBody_escChars]
      | jarr xs =>
        cases xs with
        | inil =>
          rw [show dumpVal (.jarr .inil) = ['[', ']'] from by simp [dumpVal]]
          simp only [parseJ]
          rw [skipWs_ws_append ws hws, List.cons_append, skipWs_cons_not_ws (by decide)]
          simp only [if_pos]
          rw [List.cons_append, skipWs_cons_not_ws (by decide)]
          simp
        | icons v xs =>
          rw [show dumpVal (.jarr (.icons v xs)) =
            '[' :: (dumpVal v ++ (dumpItems xs ++ [']'])) from by simp [dumpVal]]
          simp only [parseJ]
          rw [skipWs_ws_append ws hws, List.cons_append, skipWs_cons_not_ws (by decide)]
          obtain ⟨c, cs, hdump, hcw, hc1, hc2⟩ := dumpVal_head v
          have hshape : (dumpVal v ++ (dumpItems xs ++ [']'])) ++ rest =
              dumpVal v ++ (dumpItems xs ++ (']' :: rest)) := by
            simp [List.append_assoc]
          have hshape2 : dumpVal v ++ (dumpItems xs ++ (']' :: rest)) =
              c :: (cs ++ (dumpItems xs ++ (']' :: rest))) := by
            rw [hdump]
            rfl
          rw [hshape, hshape2]
          have hfuel2 : ifuel (.icons v xs) ≤ fuel := by
            have : jfuel (.jarr (.icons v xs)) = 1 + ifuel (.icons v xs) := by
              simp [jfuel]
            omega
          have := ih2 [] v xs rest (by simp) hfuel2 hstop
          simp only [List.nil_append] at this
          simp only [show ('[' = '"') = False from by simp,
            show ('[' = '[') = True from by simp, if_false, if_true, ite_true, ite_false]
          rw [skipWs_cons_not_ws hcw]
          simp only [hc1, if_false, ite_false]
          rw [← hshape2]
          exact this
      | jobj kvs =>
        cases kvs with
        | mnil =>
          rw [show dumpVal (.jobj .mnil) = ['\x7b', '\x7d'] from by simp [dumpVal]]
          simp only [parseJ]
          rw [skipWs_ws_append ws hws, List.cons_append, skipWs_cons_not_ws (by decide)]
          simp only [if_pos]
          rw [List.cons_append, skipWs_cons_not_ws (by decide)]
          simp
        | mcons k v kvs =>
          rw [show dumpVal (.jobj (.mcons k v kvs)) =
            '\x7b' :: ('"' :: (escChars k ++ '"' :: ':' :: ' ' ::
              (dumpVal v ++ (dumpMembers kvs ++ ['\x7d'])))) from by simp [dumpVal]]
          simp only [parseJ]
          rw [skipWs_ws_append ws hws, List.cons_append, skipWs_cons_not_ws (by decide)]
          have hfuel2 : mfuel (.mcons k v kvs) ≤ fuel := by
            have : jfuel (.jobj (.mcons k v kvs)) = 1 + mfuel (.mcons k v kvs) := by
              simp [jfuel]
            omega
          have hshape : ('"' :: (escChars k ++ '"' :: ':' :: ' ' ::
              (dumpVal v ++ (dumpMembers kvs ++ ['\x7d'])))) ++ rest =
              '"' :: (escChars k ++ '"' :: ':' :: ' ' ::
                (dumpVal v ++ (dumpMembers kvs ++ ('\x7d' :: rest)))) := by
            simp [List.append_assoc]
          rw [hshape]
          have := ih3 [] k v kvs rest (by simp) hfuel2 hstop
          simp only [List.nil_append] at this
          simp only [show ('\x7b' = '"') = False from by simp,
            show ('\x7b' = '[') = False from by simp,
            show ('\x7b' = '\x7b') = True from by simp, if_false, if_true,
            ite_true, ite_false]
          rw [skipWs_cons_not_ws (by decide)]
          simp only [show ('"' = '\x7d') = False from by simp, if_false, ite_false]
          exact this
    · intro ws v xs rest hws hf hstop
      have hfv : jfuel v ≤ fuel := by
        have : ifuel (.icons v xs) = 1 + jfuel v + ifuel xs := by simp [ifuel]
        omega
      have hstop2 : stopOK (dumpItems xs ++ ']' :: rest) = true := by
        cases xs with
        | inil => simp [dumpItems, stopOK]
        | icons v2 xs2 =>
          rw [show dumpItems (.icons v2 xs2) = ',' :: ' ' :: (dumpVal v2 ++ dumpItems xs2)
            from by simp [dumpItems]]
          simp [stopOK]
      simp only [parseJ]
      rw [ih1 ws v (dumpItems xs ++ ']' :: rest) hws hfv hstop2]
      cases xs with
      | inil =>
        rw [show dumpItems JItems.inil = ([] : List Char) from by simp [dumpItems],
          List.nil_append]
        have hsk : skipWs (']' :: rest) = ']' :: rest := skipWs_cons_not_ws (by decide) rest
        simp [hsk]
      | icons v2 xs2 =>
        have hfuel2 : ifuel (.icons v2 xs2) ≤ fuel := by
          have h3 : ifuel (.icons v (.icons v2 xs2)) =
              1 + jfuel v + ifuel (.icons v2 xs2) := by simp [ifuel]
          omega
        rw [show dumpItems (.icons v2 xs2) = ',' :: ' ' :: (dumpVal v2 ++ dumpItems xs2)
          from by simp [dumpItems]]
        have hsk : skipWs (',' :: ' ' :: (dumpVal v2 ++ (dumpItems xs2 ++ ']' :: rest)))
            = ',' :: ' ' :: (dumpVal v2 ++ (dumpItems xs2 ++ ']' :: rest)) :=
          skipWs_cons_not_ws (by decide) _
        have hrec2 : parseJ fuel .pitems
            (' ' :: (dumpVal v2 ++ (dumpItems xs2 ++ ']' :: rest))) =
            some (.jarr (.icons v2 xs2), rest) := by
          have := ih2 [' '] v2 xs2 rest (by decide) hfuel2 hstop
          simpa using this
        simp [hsk, hrec2]
    · intro ws k v kvs rest hws hf hstop
      have hfv : jfuel v ≤ fuel := by
        have : mfuel (.mcons k v kvs) = 1 + jfuel v + mfuel kvs := by simp [mfuel]
        omega
      simp only [parseJ]
      rw [skipWs_ws_append ws hws, skipWs_cons_not_ws (by decide)]
      simp only [show ('"' = '"') = True from by simp, if_true, ite_true]
      rw [show escChars k ++ '"' :: ':' :: ' ' ::
          (dumpVal v ++ (dumpMembers kvs ++ '\x7d' :: rest)) =
          escChars k ++ '"' :: (':' :: ' ' ::
            (dumpVal v ++ (dumpMembers kvs ++ '\x7d' :: rest))) from rfl]
      rw [parseStringBody_escChars]
      have hstop2 : stopOK (dumpMembers kvs ++ '\x7d' :: rest) = true := by
        cases kvs with
        | mnil => simp [dumpMembers, stopOK]
        | mcons k2 v2 kvs2 =>
          rw [show dumpMembers (.mcons k2 v2 kvs2) = ',' :: ' ' :: '"' ::
            (escChars k2 ++ '"' :: ':' :: ' ' :: (dumpVal v2 ++ dumpMembers kvs2))
            from by simp [dumpMembers]]
          simp [stopOK]
      have hsk : skipWs (':' :: ' ' :: (dumpVal v ++ (dumpMembers kvs ++ '\x7d' :: rest)))
          = ':' :: ' ' :: (dumpVal v ++ (dumpMembers kvs ++ '\x7d' :: rest)) :=
        skipWs_cons_not_ws (by decide) _
      have h1 : parseJ fuel .pval
          (' ' :: (dumpVal v ++ (dumpMembers kvs ++ '\x7d' :: rest))) =
          some (v, dumpMembers kvs ++ '\x7d' :: rest) := by
        have := ih1 [' '] v (dumpMembers kvs ++ '\x7d' :: rest) (by decide) hfv hstop2
        simpa using this
      simp only [hsk]
      simp only [show (':' = ':') = True from by simp, if_true, ite_true, h1]
      cases kvs with
      | mnil =>
        rw [show dumpMembers JMembers.mnil = ([] : List Char) from by simp [dumpMembers],
          List.nil_append]
        have hsk2 : skipWs ('\x7d' :: rest) = '\x7d' :: rest :=
          skipWs_cons_not_ws (by decide) rest
        simp [hsk2]
      | mcons k2 v2 kvs2 =>
        have hfuel2 : mfuel (.mcons k2 v2 kvs2) ≤ fuel := by
          have h3 : mfuel (.mcons k v (.mcons k2 v2 kvs2)) =
              1 + jfuel v + mfuel (.mcons k2 v2 kvs2) := by simp [mfuel]
          omega
        rw [show dumpMembers (.mcons k2 v2 kvs2) = ',' :: ' ' :: '"' ::
          (escChars k2 ++ '"' :: ':' :: ' ' :: (dumpVal v2 ++ dumpMembers kvs2))
          from by simp [dumpMembers]]
        have hsk2 : skipWs (',' :: ' ' :: '"' ::
            (escChars k2 ++ '"' :: ':' :: ' ' ::
              (dumpVal v2 ++ (dumpMembers kvs2 ++ '\x7d' :: rest))))
            = ',' :: ' ' :: '"' ::
              (escChars k2 ++ '"' :: ':' :: ' ' ::
                (dumpVal v2 ++ (dumpMembers kvs2 ++ '\x7d' :: rest))) :=
          skipWs_cons_not_ws (by decide) _
        have hrec2 : parseJ fuel .pmembers
            (' ' :: '"' :: (escChars k2 ++ '"' :: ':' :: ' ' ::
              (dumpVal v2 ++ (dumpMembers kvs2 ++ '\x7d' :: rest)))) =
            some (.jobj (.mcons k2 v2 kvs2), rest) := by
          have := ih3 [' '] k2 v2 kvs2 rest (by decide) hfuel2 hstop
          simpa using this
        simp [hsk2, hrec2]

theorem jsizes_pos :
    (∀ v : JVal, 1 ≤ sizeOf v) ∧ (∀ xs : JItems, 1 ≤ sizeOf xs) ∧
      (∀ kvs : JMembers, 1 ≤ sizeOf kvs) := by
  refine ⟨?_, ?_, ?_⟩
  · intro v
    cases v <;> simp
  · intro xs
    cases xs with
    | inil => simp
    | icons v ys => simp; omega
  · intro kvs
    cases kvs with
    | mnil => simp
    | mcons k v ms => simp; omega

theorem intToChars_length_pos (n : Int) : 1 ≤ (intToChars n).length := by
  cases n with
  | ofNat m =>
    obtain ⟨c, cs, hc, -⟩ := natToChars_cons m
    simp [intToChars, hc]
  | negSucc m => simp [intToChars]

theorem jfuel_le_dump_length : ∀ bound : Nat,
    (∀ v : JVal, sizeOf v ≤ bound → jfuel v ≤ 2 * (dumpVal v).length) ∧
    (∀ xs : JItems, sizeOf xs ≤ bound → ifuel xs ≤ 2 * (dumpItems xs).length + 1) ∧
    (∀ kvs : JMembers, sizeOf kvs ≤ bound → mfuel kvs ≤ 2 * (dumpMembers kvs).length + 1) := by
  intro bound
  induction bound with
  | zero =>
    refine ⟨?_, ?_, ?_⟩
    · intro v h
      exact absurd h (by have := jsizes_pos.1 v; omega)
    · intro xs h
      exact absurd h (by have := jsizes_pos.2.1 xs; omega)
    · intro kvs h
      exact absurd h (by have := jsizes_pos.2.2 kvs; omega)
  | succ bound ih =>
    obtain ⟨ih1, ih2, ih3⟩ := ih
    refine ⟨?_, ?_, ?_⟩
    · intro v h
      cases v with
      | jnull => simp [jfuel, dumpVal]
      | jbool b => cases b <;> simp [jfuel, dumpVal]
      | jnum n =>
        have := intToChars_length_pos n
        simp only [jfuel, dumpVal]
        omega
      | jstr s =>
        simp [jfuel, dumpVal]
        omega
      | jarr xs =>
        cases xs with
        | inil => simp [jfuel, ifuel, dumpVal]
        | icons v2 xs2 =>
          have hv := ih1 v2 (by simp at h ⊢; omega)
          have hx := ih2 xs2 (by simp at h ⊢; omega)
          simp only [jfuel, ifuel, dumpVal, List.length_cons, List.length_append] at *
          omega
      | jobj kvs =>
        cases kvs with
        | mnil => simp [jfuel, mfuel, dumpVal]
        | mcons k v2 kvs2 =>
          have hv := ih1 v2 (by simp at h ⊢; omega)
          have hx := ih3 kvs2 (by simp at h ⊢; omega)
          simp only [jfuel, mfuel, dumpVal, List.length_cons, List.length_append] at *
          omega
    · intro xs h
      cases xs with
      | inil => simp [ifuel, dumpItems]
      | icons v2 xs2 =>
        have hv := ih1 v2 (by simp at h ⊢; omega)
        have hx := ih2 xs2 (by simp at h ⊢; omega)
        simp only [ifuel, dumpItems, List.length_cons, List.length_append] at *
        omega
    · intro kvs h
      cases kvs with
      | mnil => simp [mfuel, dumpMembers]
      | mcons k v2 kvs2 =>
        have hv := ih1 v2 (by simp at h ⊢; omega)
        have hx := ih3 kvs2 (by simp at h ⊢; omega)
        simp only [mfuel, dumpMembers, List.length_cons, List.length_append] at *
        omega

theorem jsonLoads_dumpVal (v : JVal) : jsonLoads (dumpVal v) = some v := by
  unfold jsonLoads
  have hfuel : jfuel v ≤ 2 * (dumpVal v).length + 2 := by
    have := (jfuel_le_dump_length (sizeOf v)).1 v (le_refl _)
    omega
  have h := (parseJ_dump (2 * (dumpVal v).length + 2)).1 [] v [] (by simp) hfuel (by simp [stopOK])
  simp only [List.nil_append, List.append_nil] at h
  rw [h]
  simp [skipWs]

/-- C9: sealing a payload (string, mapping or sequence) under an
encryption context and opening it under the same context returns the
payload after the structured-to-text re-serialisation (mappings and
sequences round-trip exactly through the JSON codec, scalars come back
through the structured-parse fallback), while opening under a different
context fails with an error (the NameError produced by the broken logger
except handler) rather than returning a value. -/
theorem envelope_round_trip (p : PyData) (key : String)
    (ctx ctx2 : List (String × String)) (hctx : ctx2 ≠ ctx) :
    (encrypt_sensitive_data p key ctx).bind (fun env => decrypt_data env ctx)
      = .ok (reserializedValue p) ∧
    (encrypt_sensitive_data p key ctx).bind (fun env => decrypt_data env ctx2)
      = .error (.nameError "logger") := by
  constructor
  · simp only [encrypt_sensitive_data, encrypt_sensitive_data_with, kms_encrypt_data,
      Except.bind, decrypt_data, decrypt_data_with, kms_decrypt_data, if_pos]
    cases p with
    | pystr s => simp [serializeData, reserializedValue]
    | pydict kvs => simp [serializeData, reserializedValue, jsonLoads_dumpVal]
    | pylist xs => simp [serializeData, reserializedValue, jsonLoads_dumpVal]
  · simp only [encrypt_sensitive_data, encrypt_sensitive_data_with, kms_encrypt_data,
      Except.bind, decrypt_data, decrypt_data_with, kms_decrypt_data]
    rw [if_neg (fun h => hctx h.symm)]
    rfl

/-- C9 (witness). -/
theorem envelope_round_trip_witness :
    (encrypt_sensitive_data
        (.pydict (.mcons "account".toList (.jstr "12-34".toList) .mnil))
        "alias/bedrock-guardrail-key" [("service", "bedrock-guardrails")]).bind
      (fun env => decrypt_data env [("service", "bedrock-guardrails")])
      = .ok (reserializedValue
          (.pydict (.mcons "account".toList (.jstr "12-34".toList) .mnil))) ∧
    (encrypt_sensitive_data
        (.pydict (.mcons "account".toList (.jstr "12-34".toList) .mnil))
        "alias/bedrock-guardrail-key" [("service", "bedrock-guardrails")]).bind
      (fun env => decrypt_data env
        [("service", "bedrock-guardrails"), ("environment", "development")])
      = .error (.nameError "logger") :=
  envelope_round_trip
    (.pydict (.mcons "account".toList (.jstr "12-34".toList) .mnil))
    "alias/bedrock-guardrail-key" [("service", "bedrock-guardrails")]
    [("service", "bedrock-guardrails"), ("environment", "development")] (by decide)
